import Mathlib

/-!
Verification of the expandi-automations pipeline
(`download_all_campaigns.py` and `json_to_excel_campaigns.py`).

The scripts are shallowly embedded: parsed JSON values (Python objects
produced by `json.load`) become the inductive type `Json`, the Python `or`
chains become `pyOr` over Python truthiness, `dict.get` becomes `Json.get`
(with `Json.null` playing the role of Python `None`, exactly as `json.load`
maps JSON null to `None`), and the potentially non-terminating `while`
loops and recursions become fuel-indexed functions returning `Option`.
-/

/-- A parsed JSON value, as held by the Python scripts after `json.load`.
`null` doubles as Python `None` (the image of JSON null). Numbers are
modelled as integers: every numeric field the scripts touch is an
integer counter or id. -/
inductive Json where
  | null : Json
  | bool : Bool → Json
  | num : Int → Json
  | str : String → Json
  | arr : List Json → Json
  | obj : List (String × Json) → Json
deriving Repr

mutual

/-- Decidable equality on `Json` (written by hand: the automatic deriving
does not handle the nested `List` occurrences). -/
def Json.decEq : (a b : Json) → Decidable (a = b)
  | .null, .null => isTrue rfl
  | .null, .bool _ => isFalse fun h => Json.noConfusion h
  | .null, .num _ => isFalse fun h => Json.noConfusion h
  | .null, .str _ => isFalse fun h => Json.noConfusion h
  | .null, .arr _ => isFalse fun h => Json.noConfusion h
  | .null, .obj _ => isFalse fun h => Json.noConfusion h
  | .bool _, .null => isFalse fun h => Json.noConfusion h
  | .bool a, .bool b =>
    if h : a = b then isTrue (by rw [h]) else isFalse fun hh => h (Json.bool.inj hh)
  | .bool _, .num _ => isFalse fun h => Json.noConfusion h
  | .bool _, .str _ => isFalse fun h => Json.noConfusion h
  | .bool _, .arr _ => isFalse fun h => Json.noConfusion h
  | .bool _, .obj _ => isFalse fun h => Json.noConfusion h
  | .num _, .null => isFalse fun h => Json.noConfusion h
  | .num _, .bool _ => isFalse fun h => Json.noConfusion h
  | .num a, .num b =>
    if h : a = b then isTrue (by rw [h]) else isFalse fun hh => h (Json.num.inj hh)
  | .num _, .str _ => isFalse fun h => Json.noConfusion h
  | .num _, .arr _ => isFalse fun h => Json.noConfusion h
  | .num _, .obj _ => isFalse fun h => Json.noConfusion h
  | .str _, .null => isFalse fun h => Json.noConfusion h
  | .str _, .bool _ => isFalse fun h => Json.noConfusion h
  | .str _, .num _ => isFalse fun h => Json.noConfusion h
  | .str a, .str b =>
    if h : a = b then isTrue (by rw [h]) else isFalse fun hh => h (Json.str.inj hh)
  | .str _, .arr _ => isFalse fun h => Json.noConfusion h
  | .str _, .obj _ => isFalse fun h => Json.noConfusion h
  | .arr _, .null => isFalse fun h => Json.noConfusion h
  | .arr _, .bool _ => isFalse fun h => Json.noConfusion h
  | .arr _, .num _ => isFalse fun h => Json.noConfusion h
  | .arr _, .str _ => isFalse fun h => Json.noConfusion h
  | .arr xs, .arr ys =>
    match Json.decEqList xs ys with
    | isTrue h => isTrue (by rw [h])
    | isFalse h => isFalse fun hh => h (Json.arr.inj hh)
  | .arr _, .obj _ => isFalse fun h => Json.noConfusion h
  | .obj _, .null => isFalse fun h => Json.noConfusion h
  | .obj _, .bool _ => isFalse fun h => Json.noConfusion h
  | .obj _, .num _ => isFalse fun h => Json.noConfusion h
  | .obj _, .str _ => isFalse fun h => Json.noConfusion h
  | .obj _, .arr _ => isFalse fun h => Json.noConfusion h
  | .obj fs, .obj gs =>
    match Json.decEqPairs fs gs with
    | isTrue h => isTrue (by rw [h])
    | isFalse h => isFalse fun hh => h (Json.obj.inj hh)

/-- Decidable equality on lists of `Json`. -/
def Json.decEqList : (xs ys : List Json) → Decidable (xs = ys)
  | [], [] => isTrue rfl
  | [], _ :: _ => isFalse fun h => List.noConfusion h
  | _ :: _, [] => isFalse fun h => List.noConfusion h
  | x :: xs, y :: ys =>
    match Json.decEq x y with
    | isFalse h1 => isFalse fun h => h1 (List.cons.inj h).1
    | isTrue h1 =>
      match Json.decEqList xs ys with
      | isTrue h2 => isTrue (by rw [h1, h2])
      | isFalse h2 => isFalse fun h => h2 (List.cons.inj h).2

/-- Decidable equality on key/value pair lists of `Json`. -/
def Json.decEqPairs : (fs gs : List (String × Json)) → Decidable (fs = gs)
  | [], [] => isTrue rfl
  | [], _ :: _ => isFalse fun h => List.noConfusion h
  | _ :: _, [] => isFalse fun h => List.noConfusion h
  | (k1, v1) :: fs, (k2, v2) :: gs =>
    if hk : k1 = k2 then
      match Json.decEq v1 v2 with
      | isFalse h1 => isFalse fun h =>
          h1 (congrArg Prod.snd (List.cons.inj h).1)
      | isTrue h1 =>
        match Json.decEqPairs fs gs with
        | isTrue h2 => isTrue (by rw [hk, h1, h2])
        | isFalse h2 => isFalse fun h => h2 (List.cons.inj h).2
    else
      isFalse fun h => hk (congrArg Prod.fst (List.cons.inj h).1)

end

instance : DecidableEq Json := Json.decEq

/-- Python truthiness (`bool(x)`) on parsed JSON values: `None`, `False`,
`0`, `""`, `[]` and `{}` are falsy, everything else truthy. -/
def Json.truthy : Json → Bool
  | .null => false
  | .bool b => b
  | .num n => n != 0
  | .str s => s != ""
  | .arr xs => !xs.isEmpty
  | .obj fs => !fs.isEmpty

/-- Python `a or b` on parsed JSON values: `a` if truthy, else `b`. -/
def pyOr (a b : Json) : Json := if a.truthy then a else b

/-- Python `d.get(k)` for a parsed JSON object: the value stored at `k`
(objects parsed by `json.load` have unique keys), `None` when the key is
absent or `d` is not a dict. -/
def Json.get (d : Json) (k : String) : Json :=
  match d with
  | .obj fs => (List.lookup k fs).getD .null
  | _ => .null

/-- Python `isinstance(x, dict)`. -/
def Json.isObj : Json → Bool
  | .obj _ => true
  | _ => false

/-- Python `isinstance(x, list)`. -/
def Json.isArr : Json → Bool
  | .arr _ => true
  | _ => false

example : (Json.obj [("a", .num 1)]).get "a" = .num 1 := by decide
example : (Json.obj [("a", .num 1)]).get "b" = .null := by decide
example : pyOr (.str "") (.num 3) = .num 3 := by decide

/-! ## Python string helpers -/

/-- The single-quote character, used by Python `repr` of strings. -/
def squote : String := String.singleton (Char.ofNat 39)

/-- The characters stripped by Python `str.strip()` (ASCII whitespace). -/
def isPySpace (c : Char) : Bool :=
  c = ' ' || c = '\t' || c = '\n' || c = '\r' || c = '\x0B' || c = '\x0C'

/-- Python `s.strip()`: remove leading and trailing whitespace. -/
def stripPy (s : String) : String :=
  String.mk (((s.data.dropWhile isPySpace).reverse.dropWhile isPySpace).reverse)

/-- Python `s.lstrip("/")`: remove leading slashes. -/
def lstripSlashes (s : String) : String :=
  String.mk (s.data.dropWhile (· = '/'))

/-- Python `", ".join(l)`. -/
def joinComma (l : List String) : String := String.intercalate ", " l

mutual

/-- Python `repr` on parsed JSON values (`str` falls back to this for
lists and dicts). String escaping inside `repr` is simplified: the
strings the scripts feed here never contain quotes or control
characters. -/
def pyRepr : Json → String
  | .null => "None"
  | .bool true => "True"
  | .bool false => "False"
  | .num n => toString n
  | .str s => squote ++ s ++ squote
  | .arr xs => "[" ++ pyReprList xs ++ "]"
  | .obj fs => "\x7b" ++ pyReprPairs fs ++ "\x7d"

/-- Comma-separated `repr` of list elements. -/
def pyReprList : List Json → String
  | [] => ""
  | [x] => pyRepr x
  | x :: y :: xs => pyRepr x ++ ", " ++ pyReprList (y :: xs)

/-- Comma-separated `repr` of dict entries. -/
def pyReprPairs : List (String × Json) → String
  | [] => ""
  | [(k, v)] => squote ++ k ++ squote ++ ": " ++ pyRepr v
  | (k, v) :: p :: fs => squote ++ k ++ squote ++ ": " ++ pyRepr v ++ ", " ++ pyReprPairs (p :: fs)

end

/-- Python `str(x)` on parsed JSON values. -/
def pyStr : Json → String
  | .str s => s
  | v => pyRepr v

/-- One hex digit, lower case, for `\u00XX` escapes. -/
def hexDigit (n : Nat) : Char :=
  if n < 10 then Char.ofNat (48 + n) else Char.ofNat (87 + n)

/-- JSON string escaping as performed by `json.dumps` (with
`ensure_ascii=False`, so non-ASCII characters pass through). -/
def jsonEscChar (c : Char) : String :=
  if c = '\"' then "\\\""
  else if c = '\\' then "\\\\"
  else if c = '\n' then "\\n"
  else if c = '\t' then "\\t"
  else if c = '\r' then "\\r"
  else if c = '\x08' then "\\b"
  else if c = '\x0C' then "\\f"
  else if c.toNat < 32 then
    "\\u00" ++ String.singleton (hexDigit (c.toNat / 16)) ++ String.singleton (hexDigit (c.toNat % 16))
  else String.singleton c

/-- A JSON string literal as produced by `json.dumps`. -/
def jsonQuote (s : String) : String :=
  "\"" ++ String.join (s.data.map jsonEscChar) ++ "\""

mutual

/-- Python `json.dumps(x, ensure_ascii=False)` with the default separators. -/
def jsonDumps : Json → String
  | .null => "null"
  | .bool true => "true"
  | .bool false => "false"
  | .num n => toString n
  | .str s => jsonQuote s
  | .arr xs => "[" ++ jsonDumpsList xs ++ "]"
  | .obj fs => "\x7b" ++ jsonDumpsPairs fs ++ "\x7d"

/-- Comma-separated dump of list elements. -/
def jsonDumpsList : List Json → String
  | [] => ""
  | [x] => jsonDumps x
  | x :: y :: xs => jsonDumps x ++ ", " ++ jsonDumpsList (y :: xs)

/-- Comma-separated dump of dict entries. -/
def jsonDumpsPairs : List (String × Json) → String
  | [] => ""
  | [(k, v)] => jsonQuote k ++ ": " ++ jsonDumps v
  | (k, v) :: p :: fs => jsonQuote k ++ ": " ++ jsonDumps v ++ ", " ++ jsonDumpsPairs (p :: fs)

end

example : stripPy "  a b  " = "a b" := by decide
example : jsonDumps (.obj [("a", .num 1), ("b", .str "x")]) = "\x7b\"a\": 1, \"b\": \"x\"\x7d" := by decide

/-! ## `download_all_campaigns.py` -/

def BASE_URL : String := "https://api.liaufa.com/api/v1/open-api/v2"

/-- The source `CAMPAIGNS_PATH_TEMPLATE.format(id=account_id)`. -/
def campaignsPath (account_id : String) : String :=
  "/li_accounts/" ++ account_id ++ "/campaign_instances/"

/-- From `DEFAULT_PARAMS = {"page": 1, "limit": 100}`; the campaign paginator
reads the limit out of this dict. -/
def DEFAULT_LIMIT : Nat := 100

def RATE_LIMIT_SLEEP_SEC : Nat := 5

/-- Python `urljoin(BASE_URL + "/", rel.lstrip("/"))` for the relative paths the
script builds: since `BASE_URL + "/"` ends in a slash and the stripped
path carries no scheme, `urljoin` appends the path after that slash. -/
def urljoinBase (rel : String) : String :=
  BASE_URL ++ "/" ++ lstripSlashes rel

/-- The source `extract_list_and_next(data)`.  A list body is itself the item list
with no pointer; a dict body is probed with Python `or` chains (first
*truthy* value wins); any other body raises `AttributeError` on `.get`,
modelled as `none`. -/
def extract_list_and_next (data : Json) : Option (Json × Json) :=
  match data with
  | .arr xs => some (.arr xs, .null)
  | .obj _ =>
    some
      (pyOr (pyOr (pyOr (data.get "results") (data.get "items")) (data.get "data")) (.arr []),
       pyOr (pyOr (data.get "next") (data.get "nextPage")) (data.get "next_page"))
  | _ => none

def ACCOUNT_ID_KEYS : List String := ["id", "pk", "_id", "uuid", "account_id", "li_account_id"]

/-- The key loop inside `pick_account_id`: first key whose value is not
`None` wins and is passed through `str`. -/
def pickIdFrom (acc : Json) : List String → Option String
  | [] => none
  | k :: ks =>
    match acc.get k with
    | .null => pickIdFrom acc ks
    | v => some (pyStr v)

/-- The source `pick_account_id(acc)`. -/
def pick_account_id (acc : Json) : Option String :=
  pickIdFrom acc ACCOUNT_ID_KEYS

/-- The source `pick_account_label(acc)`: `(name, linkedin)` via Python `or` chains
(the values are not passed through `str`). -/
def pick_account_label (acc : Json) : Json × Json :=
  (pyOr (pyOr (pyOr (pyOr (acc.get "name") (acc.get "fullName")) (acc.get "email")) (acc.get "username")) (.str ""),
   pyOr (pyOr (pyOr (acc.get "linkedinUrl") (acc.get "linkedin_url")) (acc.get "public_profile_url")) (.str ""))

/-- One GET issued by the campaign paginator: the URL together with the
query parameters `{"page": page, "limit": limit}` that are sent on every
iteration of the loop. -/
structure Request where
  url : String
  page : Nat
  limit : Nat
deriving Repr, DecidableEq

/-- Python `s.startswith(pre)`, written over the character lists so that
it evaluates inside the kernel. -/
def strStartsWith (s pre : String) : Bool := pre.data.isPrefixOf s.data

/-- The source `next_url if next_url.startswith("http") else urljoin(BASE_URL + "/", next_url.lstrip("/"))`. -/
def resolve_next_url (next_url : String) : String :=
  if strStartsWith next_url "http" then next_url else urljoinBase (lstripSlashes next_url)

/-- Python iteration over a parsed JSON value, as consumed by
`all_campaigns.extend(campaigns)`: lists yield their elements, strings
their characters, dicts their keys; other values raise `TypeError`. -/
def pyIter : Json → Option (List Json)
  | .arr xs => some xs
  | .str s => some (s.data.map fun c => Json.str (String.singleton c))
  | .obj fs => some (fs.map fun kv => Json.str kv.1)
  | _ => none

/-- Outcome of one run of `fetch_campaigns_for_account`, with the log of
issued requests: either the accumulated campaign list, or a Python
`TypeError`/`AttributeError` crash inside the loop body. -/
inductive FetchResult where
  | ok (campaigns : List Json) (reqs : List Request)
  | typeError (reqs : List Request)
deriving Repr, DecidableEq

/-- The `while True` loop of `fetch_campaigns_for_account`, fuel-indexed
(`none` = still looping after `fuel` iterations).  The server is the
composite of `session_get_json` with a 2xx response: a parsed JSON body
per request. -/
def fetchCampaignsAux (server : Request → Json) (limit : Nat) :
    Nat → String → Nat → List Json → List Request → Option FetchResult
  | 0, _, _, _, _ => none
  | fuel + 1, url, page, all_campaigns, reqs =>
    let req : Request := ⟨url, page, limit⟩
    let reqs := reqs ++ [req]
    match extract_list_and_next (server req) with
    | none => some (.typeError reqs)
    | some (campaigns, next_url) =>
      match pyIter campaigns with
      | none => some (.typeError reqs)
      | some items =>
        let all_campaigns := all_campaigns ++ items
        if next_url.truthy then
          match next_url with
          | .str s =>
            fetchCampaignsAux server limit fuel (resolve_next_url s) (page + 1) all_campaigns reqs
          | _ => some (.typeError reqs)
        else if items.length < limit then
          some (.ok all_campaigns reqs)
        else
          fetchCampaignsAux server limit fuel url (page + 1) all_campaigns reqs

/-- The source `fetch_campaigns_for_account(session, headers, account_id)`: start at
page 1 with `limit = DEFAULT_PARAMS.get("limit", 100)` on the campaign-instances URL
of the account. -/
def fetch_campaigns_for_account (server : Request → Json) (account_id : String) (fuel : Nat) :
    Option FetchResult :=
  fetchCampaignsAux server DEFAULT_LIMIT fuel (urljoinBase (campaignsPath account_id)) 1 [] []

/-- The identity of a GET as issued by `session_get_json`: URL, headers
and query params, all passed unchanged into the recursive retry call. -/
structure HttpRequest where
  url : String
  headers : List (String × String)
  params : List (String × Json)
deriving Repr, DecidableEq

/-- What `session_get_json` delivers to its caller: the parsed body for a
status below 400, or the `RuntimeError` raised for a 4xx/5xx status other
than 429. -/
inductive GetOutcome where
  | ok (body : Json)
  | httpError (status : Nat)
deriving Repr, DecidableEq

/-- The source `session_get_json(session, url, headers, params)`, fuel-indexed.  The
server maps (request, attempt index) to a status code and parsed body.
The result also counts the `time.sleep(RATE_LIMIT_SLEEP_SEC)` pauses
taken, one per 429 received; `none` means the recursion was still running
after `fuel` attempts. -/
def session_get_json (server : HttpRequest → Nat → Nat × Json) (req : HttpRequest) :
    Nat → Nat → Option (GetOutcome × Nat)
  | _, 0 => none
  | attempt, fuel + 1 =>
    let resp := server req attempt
    if resp.1 = 429 then
      match session_get_json server req (attempt + 1) fuel with
      | some (r, sleeps) => some (r, sleeps + 1)
      | none => none
    else if 400 ≤ resp.1 then some (.httpError resp.1, 0)
    else some (.ok resp.2, 0)

/-- One element of `all_rows` as built in `main` of the fetcher: the
account identity plus one raw campaign object. -/
structure CampaignRow where
  account_id : String
  account_name : Json
  account_linkedin : Json
  campaign : Json
deriving Repr, DecidableEq

/-- Outcome of the account loop in `main`: the collected rows and request
log, or a crash that aborts the run before anything is written. -/
inductive RunResult where
  | ok (rows : List CampaignRow) (reqs : List Request)
  | crashed (reqs : List Request)
deriving Repr, DecidableEq

/-- The `for i, acc in enumerate(accounts, 1)` loop in `main` of the fetcher: accounts without a truthy picked id are skipped with a warning;
for the rest the campaign paginator runs and one row per campaign is
appended. -/
def processAccounts (server : Request → Json) (fuel : Nat) :
    List Json → List CampaignRow → List Request → Option RunResult
  | [], rows, reqs => some (.ok rows reqs)
  | acc :: rest, rows, reqs =>
    match pick_account_id acc with
    | none => processAccounts server fuel rest rows reqs
    | some account_id =>
      if account_id = "" then processAccounts server fuel rest rows reqs
      else
        match fetch_campaigns_for_account server account_id fuel with
        | none => none
        | some (.typeError r) => some (.crashed (reqs ++ r))
        | some (.ok campaigns r) =>
          let label := pick_account_label acc
          processAccounts server fuel rest
            (rows ++ campaigns.map fun c => ⟨account_id, label.1, label.2, c⟩)
            (reqs ++ r)

/-! ## `json_to_excel_campaigns.py` -/

/-- The source `get_first(d, keys)`: first key that is in the dict with a non-`None`
value; `None` when the loop falls through (also when `d` is not a dict,
since then no iteration fires). -/
def get_first (d : Json) : List String → Json
  | [] => .null
  | k :: ks =>
    match d, d.get k with
    | .obj _, .null => get_first d ks
    | .obj _, v => v
    | _, _ => .null

/-- The source `campaign.get("campaign") if isinstance(campaign.get("campaign"), dict) else {}`. -/
def nestedCampaign (campaign : Json) : Json :=
  if (campaign.get "campaign").isObj then campaign.get "campaign" else Json.obj []

/-- The source `normalize_campaign_name(campaign)`. -/
def normalize_campaign_name (campaign : Json) : Json :=
  pyOr
    (pyOr (get_first campaign ["name", "title", "campaign_name"])
      (get_first (nestedCampaign campaign) ["name", "title"]))
    (.str "")

/-- The loop body of `normalize_list`: a string stays, a dict is reduced
through the `or` chain over name/label/title/id with a `json.dumps`
fallback, anything else goes through `str`. -/
def normItem : Json → String
  | .str s => s
  | .obj fs =>
    pyStr
      (pyOr
        (pyOr (pyOr (pyOr ((Json.obj fs).get "name") ((Json.obj fs).get "label"))
          ((Json.obj fs).get "title")) ((Json.obj fs).get "id"))
        (.str (jsonDumps (Json.obj fs))))
  | v => pyStr v

/-- The dedup pass of `normalize_list`: keep first occurrences, drop empty
strings. -/
def dedupNonEmpty (out : List String) : List String :=
  out.foldl (fun dedup v => if !dedup.contains v && v != "" then dedup ++ [v] else dedup) []

/-- The source `normalize_list(x)`. -/
def normalize_list : Json → String
  | .null => ""
  | .arr [] => ""
  | .arr items => joinComma (dedupNonEmpty (items.map normItem))
  | x => pyStr x

/-- One flattened record, the dict built by `flatten_row` (one column per
stats key). -/
structure FlatRow where
  account_name : Json
  account_id : Json
  campaign_name : Json
  campaign_instance_id : Json
  status : Json
  activated : Json
  deactivated : Json
  tags : String
  labels : String
  stats_stopped : Json
  stats_finished : Json
  stats_in_queue : Json
  stats_connected : Json
  stats_initiated : Json
  stats_step_count : Json
  stats_maybe_people : Json
  stats_contacted_people : Json
  stats_latest_action_id : Json
  stats_interested_people : Json
  stats_people_in_campaign : Json
  stats_replied_first_action : Json
  stats_not_interested_people : Json
  stats_replied_other_actions : Json
deriving Repr, DecidableEq

/-- The source `flatten_row(row)`. -/
def flatten_row (row : Json) : FlatRow :=
  let campaign0 := pyOr (row.get "campaign") (Json.obj [])
  let campaign := if campaign0.isObj then campaign0 else Json.obj []
  let stats0 := pyOr (campaign.get "stats") (Json.obj [])
  let stats := if stats0.isObj then stats0 else Json.obj []
  { account_name := row.get "account_name"
    account_id := row.get "account_id"
    campaign_name := normalize_campaign_name campaign
    campaign_instance_id := get_first campaign ["id", "_id", "pk", "uuid", "campaign_instance_id"]
    status := get_first campaign ["status", "state"]
    activated := get_first campaign ["activated", "activated_at", "activatedAt"]
    deactivated := get_first campaign ["deactivated", "deactivated_at", "deactivatedAt"]
    tags := normalize_list (campaign.get "tags")
    labels := normalize_list (campaign.get "labels")
    stats_stopped := stats.get "stopped"
    stats_finished := stats.get "finished"
    stats_in_queue := stats.get "in_queue"
    stats_connected := stats.get "connected"
    stats_initiated := stats.get "initiated"
    stats_step_count := stats.get "step_count"
    stats_maybe_people := stats.get "maybe_people"
    stats_contacted_people := stats.get "contacted_people"
    stats_latest_action_id := stats.get "latest_action_id"
    stats_interested_people := stats.get "interested_people"
    stats_people_in_campaign := stats.get "people_in_campaign"
    stats_replied_first_action := stats.get "replied_first_action"
    stats_not_interested_people := stats.get "not_interested_people"
    stats_replied_other_actions := stats.get "replied_other_actions" }

/-- The campaign-name column after
`df["campaign_name"].fillna("").astype(str)`: missing values become `""`,
everything else goes through `str`. -/
def rowName (r : FlatRow) : String :=
  match r.campaign_name with
  | .null => ""
  | v => pyStr v

/-- The row filter `df[df["campaign_name"].str.strip() != ""]`. -/
def keepRow (r : FlatRow) : Bool := stripPy (rowName r) != ""

/-- The retained table: every input record flattened, then the blank-name
rows dropped. -/
def tableRows (data : List Json) : List FlatRow :=
  (data.map flatten_row).filter keepRow

/-- A numeric cell of the data frame (missing values are NaN after
the pandas numeric conversion; they come from `stats.get(k)` being `None`). -/
def asNum : Json → Option Int
  | .num n => some n
  | _ => none

/-- A string cell of an object column (`None` is NaN). -/
def asStr : Json → Option String
  | .str s => some s
  | _ => none

/-- pandas `"sum"` aggregation over a numeric column: NaN cells are
skipped, an all-NaN group sums to 0. -/
def pdSum : List Json → Int
  | [] => 0
  | x :: xs => (asNum x).getD 0 + pdSum xs

/-- pandas `"max"` aggregation over a numeric column: NaN cells are
skipped, an all-NaN group yields NaN (`none`). -/
def pdMaxNum : List Json → Option Int
  | [] => none
  | x :: xs =>
    match asNum x, pdMaxNum xs with
    | none, m => m
    | some a, none => some a
    | some a, some b => some (max a b)

/-- pandas `"min"` aggregation over an object column of strings: NaN
cells are skipped, comparison is lexicographic. -/
def pdMinStr : List Json → Option String
  | [] => none
  | x :: xs =>
    match asStr x, pdMinStr xs with
    | none, m => m
    | some a, none => some a
    | some a, some b => some (min a b)

/-- pandas `"max"` aggregation over an object column of strings. -/
def pdMaxStr : List Json → Option String
  | [] => none
  | x :: xs =>
    match asStr x, pdMaxStr xs with
    | none, m => m
    | some a, none => some a
    | some a, some b => some (max a b)

/-- The part splitter inside `join_unique`:
`[p.strip() for p in x.split(",") if p.strip()]`. -/
def splitPartsPy (s : String) : List String :=
  ((s.splitOn ",").map stripPy).filter (· != "")

/-- First-occurrence dedup (the seen-set loop of `join_unique`). -/
def dedupKeep (l : List String) : List String :=
  l.foldl (fun out v => if out.contains v then out else out ++ [v]) []

/-- The source `join_unique(series)` for the tags/labels columns: split each cell
back into parts, flatten, dedup preserving first-seen order, rejoin. -/
def join_unique (series : List String) : String :=
  joinComma (dedupKeep ((series.map splitPartsPy).flatten))

/-- One row of the `SUMMARY_BY_CAMPAIGN` sheet. -/
structure SummaryRow where
  account_name : Json
  campaign_name : String
  activated : Option String
  deactivated : Option String
  tags : String
  labels : String
  stats_stopped : Int
  stats_finished : Int
  stats_in_queue : Int
  stats_connected : Int
  stats_initiated : Int
  stats_step_count : Option Int
  stats_maybe_people : Int
  stats_contacted_people : Int
  stats_latest_action_id : Option Int
  stats_interested_people : Int
  stats_people_in_campaign : Int
  stats_replied_first_action : Int
  stats_not_interested_people : Int
  stats_replied_other_actions : Int
deriving Repr, DecidableEq

/-- The rows of one `groupby(["account_name", "campaign_name"])` group:
those sharing the given key (the name component is the stringified
column that was also used for filtering). -/
def groupOf (rows : List FlatRow) (key : Json × String) : List FlatRow :=
  rows.filter fun r => r.account_name == key.1 && rowName r == key.2

/-- The summary row `.agg(agg_dict)` produces for one group: every stats
counter summed except `latest_action_id` and `step_count` which take the
maximum, `activated` takes the minimum, `deactivated` the maximum, and
tags/labels the deduplicated union. -/
def summaryFor (rows : List FlatRow) (key : Json × String) : SummaryRow :=
  let g := groupOf rows key
  { account_name := key.1
    campaign_name := key.2
    activated := pdMinStr (g.map (·.activated))
    deactivated := pdMaxStr (g.map (·.deactivated))
    tags := join_unique (g.map (·.tags))
    labels := join_unique (g.map (·.labels))
    stats_stopped := pdSum (g.map (·.stats_stopped))
    stats_finished := pdSum (g.map (·.stats_finished))
    stats_in_queue := pdSum (g.map (·.stats_in_queue))
    stats_connected := pdSum (g.map (·.stats_connected))
    stats_initiated := pdSum (g.map (·.stats_initiated))
    stats_step_count := pdMaxNum (g.map (·.stats_step_count))
    stats_maybe_people := pdSum (g.map (·.stats_maybe_people))
    stats_contacted_people := pdSum (g.map (·.stats_contacted_people))
    stats_latest_action_id := pdMaxNum (g.map (·.stats_latest_action_id))
    stats_interested_people := pdSum (g.map (·.stats_interested_people))
    stats_people_in_campaign := pdSum (g.map (·.stats_people_in_campaign))
    stats_replied_first_action := pdSum (g.map (·.stats_replied_first_action))
    stats_not_interested_people := pdSum (g.map (·.stats_not_interested_people))
    stats_replied_other_actions := pdSum (g.map (·.stats_replied_other_actions)) }

/-! ## Spec-side characterizations -/

/-- The literal "first present key" reading of the spec: the value of the
first alias key that is present in the object, regardless of its value. -/
def firstPresentKey (d : Json) : List String → Option Json
  | [] => none
  | k :: ks =>
    match d with
    | .obj fs =>
      match List.lookup k fs with
      | some v => some v
      | none => firstPresentKey d ks
    | _ => none

/-- First alias key whose value is truthy; what the `or` chains of the code
actually compute. -/
def firstTruthyKey (d : Json) : List String → Option Json
  | [] => none
  | k :: ks => if (d.get k).truthy then some (d.get k) else firstTruthyKey d ks

/-- The per-object reduction of `normalize_list` as the claim words it:
the first *present* name/label/title/id field, JSON-serializing objects
with none of the four. -/
def specPresentLabel (item : Json) : String :=
  match firstPresentKey item ["name", "label", "title", "id"] with
  | some v => pyStr v
  | none => jsonDumps item

/-- The per-object reduction as the code computes it: the first *truthy*
of name/label/title/id, with the `json.dumps` fallback. -/
def specTruthyLabel (item : Json) : String :=
  match firstTruthyKey item ["name", "label", "title", "id"] with
  | some v => pyStr v
  | none => jsonDumps item

/-- The list-of-objects mapping as the claim words it: reduce each object to its first
present field, dedup preserving first-seen order, comma-join. -/
def specClaimList (items : List Json) : String :=
  joinComma (dedupKeep (items.map specPresentLabel))

theorem pyOr_assoc (a b c : Json) : pyOr (pyOr a b) c = pyOr a (pyOr b c) := by
  unfold pyOr
  by_cases ha : a.truthy <;> simp [ha]

theorem pyOr_chain_getD (d dflt : Json) :
    ∀ keys : List String,
      (keys.foldr (fun k acc => pyOr (d.get k) acc) dflt) =
        (firstTruthyKey d keys).getD dflt := by
  intro keys
  induction keys with
  | nil => rfl
  | cons k ks ih =>
    rw [List.foldr_cons, ih]
    by_cases h : (d.get k).truthy <;> simp [firstTruthyKey, pyOr, h]

theorem chain3_spec (d : Json) (k1 k2 k3 : String) :
    (∀ v, firstTruthyKey d [k1, k2, k3] = some v →
      pyOr (pyOr (d.get k1) (d.get k2)) (d.get k3) = v) ∧
    (firstTruthyKey d [k1, k2, k3] = none →
      (pyOr (pyOr (d.get k1) (d.get k2)) (d.get k3)).truthy = false) := by
  by_cases h1 : (d.get k1).truthy <;> by_cases h2 : (d.get k2).truthy <;>
    by_cases h3 : (d.get k3).truthy <;>
    constructor <;> simp [firstTruthyKey, pyOr, h1, h2, h3]

/-- C8 (counterexample): on the body
`{"results": [], "items": ["x"]}` the code returns the value of `items`,
while the claimed "first present key among results, items, data" is
`results`, whose value is the empty list — and the two differ. -/
theorem C8_counterexample :
    extract_list_and_next (.obj [("results", .arr []), ("items", .arr [.str "x"])]) =
      some (.arr [.str "x"], .null) ∧
    firstPresentKey (.obj [("results", .arr []), ("items", .arr [.str "x"])])
      ["results", "items", "data"] = some (.arr []) ∧
    Json.arr [.str "x"] ≠ .arr [] := by
  refine ⟨by decide, by decide, by decide⟩

/-- C8 (amended): for an array body the item list is the body itself and
no pointer is returned; for an object body the item list is the first
*truthy* value among `results`, `items`, `data` (empty list if none is
truthy) and the next-page pointer is the first truthy of `next`,
`nextPage`, `next_page` (with a falsy leftover — and so no pointer for
the loop — when none is truthy); for any other body `.get` raises
`AttributeError`. -/
theorem C8_extract_shape :
    (∀ xs : List Json, extract_list_and_next (.arr xs) = some (.arr xs, .null)) ∧
    (∀ fs : List (String × Json),
      (extract_list_and_next (.obj fs)).map Prod.fst =
        some ((firstTruthyKey (.obj fs) ["results", "items", "data"]).getD (.arr [])) ∧
      (∀ v, firstTruthyKey (.obj fs) ["next", "nextPage", "next_page"] = some v →
        (extract_list_and_next (.obj fs)).map Prod.snd = some v) ∧
      (firstTruthyKey (.obj fs) ["next", "nextPage", "next_page"] = none →
        ∃ nx, (extract_list_and_next (.obj fs)).map Prod.snd = some nx ∧ nx.truthy = false)) ∧
    (∀ d : Json, d.isArr = false → d.isObj = false → extract_list_and_next d = none) := by
  refine ⟨fun xs => rfl, fun fs => ⟨?_, ?_, ?_⟩, fun d h1 h2 => ?_⟩
  · have h := pyOr_chain_getD (Json.obj fs) (.arr []) ["results", "items", "data"]
    simp only [List.foldr_cons, List.foldr_nil] at h
    simp only [extract_list_and_next, Option.map]
    rw [pyOr_assoc, pyOr_assoc, h]
  · intro v hv
    simp only [extract_list_and_next, Option.map]
    rw [(chain3_spec (Json.obj fs) "next" "nextPage" "next_page").1 v hv]
  · intro hn
    refine ⟨pyOr (pyOr ((Json.obj fs).get "next") ((Json.obj fs).get "nextPage"))
      ((Json.obj fs).get "next_page"), rfl, ?_⟩
    exact (chain3_spec (Json.obj fs) "next" "nextPage" "next_page").2 hn
  · cases d <;> simp_all [extract_list_and_next, Json.isArr, Json.isObj]

theorem normItem_obj (fs : List (String × Json)) :
    normItem (.obj fs) = specTruthyLabel (.obj fs) := by
  have h := pyOr_chain_getD (Json.obj fs) (.str (jsonDumps (.obj fs)))
    ["name", "label", "title", "id"]
  simp only [List.foldr_cons, List.foldr_nil] at h
  simp only [normItem]
  rw [pyOr_assoc, pyOr_assoc, pyOr_assoc, h]
  unfold specTruthyLabel
  cases hf : firstTruthyKey (Json.obj fs) ["name", "label", "title", "id"] with
  | none => simp only [Option.getD]; rfl
  | some v => simp

/-- The whitespace-only-name counterexample object for the claimed
"first present field" reduction: `name` is present but empty, `label`
is not. -/
def c5item : Json := .obj [("name", .str ""), ("label", .str "L")]

/-- C5 (counterexample): on `[{"name": "", "label": "L"}]` the code
reduces the object through Python `or`, skipping the falsy—but
present—`name` field and producing `"L"`, while the claimed "first
present name/label/title/id field" mapping yields `""`. -/
theorem C5_counterexample :
    normalize_list (.arr [c5item]) = "L" ∧
    specClaimList [c5item] = "" ∧
    ("L" : String) ≠ "" := ⟨by decide, by decide, by decide⟩

/-- C5 (amended): `normalize_list` is idempotent (its output, a string,
is returned unchanged), `["a","b"]` maps to `"a, b"`, duplicate objects
dedup to a single label, and a list of objects maps each object to its
first *truthy* name/label/title/id field (JSON-serializing objects with
none truthy), deduplicated preserving first-seen order with empty
strings dropped, then comma-joined. -/
theorem C5_normalize_list :
    (∀ x : Json, normalize_list (.str (normalize_list x)) = normalize_list x) ∧
    normalize_list (.arr [.str "a", .str "b"]) = "a, b" ∧
    normalize_list (.arr [.obj [("name", .str "x")], .obj [("name", .str "x")]]) = "x" ∧
    (∀ items : List Json, items ≠ [] → (∀ j ∈ items, j.isObj = true) →
      normalize_list (.arr items) = joinComma (dedupNonEmpty (items.map specTruthyLabel))) := by
  refine ⟨fun x => rfl, by decide, by decide, ?_⟩
  intro items hne hobj
  cases items with
  | nil => exact absurd rfl hne
  | cons a l =>
    show joinComma (dedupNonEmpty (List.map normItem (a :: l))) = _
    refine congrArg joinComma (congrArg dedupNonEmpty (List.map_congr_left ?_))
    intro j hj
    have hjo := hobj j hj
    cases j <;> simp_all [Json.isObj, normItem_obj]

/-- The campaign object of the C7 counterexample: `name` is present and
non-null but empty, and a nested `campaign` object carries a name. -/
def c7campaign : Json := .obj [("name", .str ""), ("campaign", .obj [("name", .str "X")])]

/-- C7 (counterexample): on
`{"name": "", "campaign": {"name": "X"}}` the first non-null value among
the name aliases is `""`, but the `or` chain of the code discards it as falsy
and resolves the campaign name to the nested `"X"` instead. -/
theorem C7_counterexample :
    normalize_campaign_name c7campaign = .str "X" ∧
    get_first c7campaign ["name", "title", "campaign_name"] = .str "" ∧
    Json.str "X" ≠ .str "" := ⟨by decide, by decide, by decide⟩

/-- C7 (amended): `get_first` skips null/absent alias keys, returns the
first non-null value, and yields null — never an error — when every
alias is absent or null; the campaign-name resolution uses the first
non-null top-level alias only when it is *truthy*, otherwise falls back
to the name/title of the nested `campaign` object (again only if truthy) and
finally to `""`; an object with `title="Foo"` and no `name` resolves to
`"Foo"`. -/
theorem C7_field_resolution :
    (∀ (d : Json) (keys : List String),
      (∀ k ∈ keys, d.get k = .null) → get_first d keys = .null) ∧
    (∀ (d : Json) (k : String) (keys : List String),
      d.get k = .null → get_first d (k :: keys) = get_first d keys) ∧
    (∀ (d : Json) (k : String) (keys : List String),
      d.isObj = true → d.get k ≠ .null → get_first d (k :: keys) = d.get k) ∧
    (∀ c : Json, (get_first c ["name", "title", "campaign_name"]).truthy = true →
      normalize_campaign_name c = get_first c ["name", "title", "campaign_name"]) ∧
    (∀ c : Json, (get_first c ["name", "title", "campaign_name"]).truthy = false →
      (get_first (nestedCampaign c) ["name", "title"]).truthy = true →
      normalize_campaign_name c = get_first (nestedCampaign c) ["name", "title"]) ∧
    (∀ c : Json, (get_first c ["name", "title", "campaign_name"]).truthy = false →
      (get_first (nestedCampaign c) ["name", "title"]).truthy = false →
      normalize_campaign_name c = .str "") ∧
    normalize_campaign_name (.obj [("title", .str "Foo")]) = .str "Foo" := by
  refine ⟨?_, ?_, ?_, ?_, ?_, ?_, by decide⟩
  · intro d keys
    induction keys with
    | nil => intro h; rfl
    | cons k ks ih =>
      intro h
      have hk : d.get k = .null := h k (List.mem_cons_self k ks)
      have ih2 := ih fun k2 hk2 => h k2 (List.mem_cons_of_mem k hk2)
      cases d <;> simp only [get_first] <;> rw [hk] <;> exact ih2
  · intro d k keys hk
    cases d
    case obj fs => simp only [get_first]; rw [hk]
    all_goals cases keys <;> rfl
  · intro d k keys hd hv
    cases d
    case obj fs => simp only [get_first]
    all_goals simp [Json.isObj] at hd
  · intro c h
    simp [normalize_campaign_name, pyOr, h]
  · intro c h1 h2
    simp [normalize_campaign_name, pyOr, h1, h2]
  · intro c h1 h2
    simp [normalize_campaign_name, pyOr, h1, h2]

/-- C7 witness: the amended resolution rules applied at concrete objects
(absent aliases give null; a null alias is skipped; a non-null alias is
returned; the falsy-name fallback reaches the nested object; an empty
object resolves to `""`). -/
theorem C7_witness :
    get_first (.obj [("x", .num 1)]) ["status", "state"] = .null ∧
    get_first (.obj [("title", .str "Foo")]) ("name" :: ["title", "campaign_name"]) =
      get_first (.obj [("title", .str "Foo")]) ["title", "campaign_name"] ∧
    get_first (.obj [("title", .str "Foo")]) ("title" :: ["campaign_name"]) =
      (Json.obj [("title", .str "Foo")]).get "title" ∧
    normalize_campaign_name c7campaign = get_first (nestedCampaign c7campaign) ["name", "title"] ∧
    normalize_campaign_name (.obj []) = .str "" := by
  obtain ⟨ha, hb, hc, hd, he, hf, hg⟩ := C7_field_resolution
  exact ⟨ha _ _ (by decide), hb _ _ _ (by decide), hc _ _ _ (by decide) (by decide),
    he _ (by decide) (by decide), hf _ (by decide) (by decide)⟩

/-- C6: a flattened row appears in the retained table exactly when its
stringified campaign name is non-blank after stripping. -/
theorem C6_row_filter :
    ∀ (data : List Json) (r0 : Json), r0 ∈ data →
      (flatten_row r0 ∈ tableRows data ↔ stripPy (rowName (flatten_row r0)) ≠ "") := by
  intro data r0 hmem
  unfold tableRows
  rw [List.mem_filter]
  constructor
  · rintro ⟨-, hk⟩
    simpa [keepRow] using hk
  · intro hne
    exact ⟨List.mem_map_of_mem _ hmem, by simpa [keepRow] using hne⟩

/-- A record whose campaign name is whitespace only. -/
def c6recBlank : Json :=
  .obj [("account_name", .str "A"), ("campaign", .obj [("name", .str "   ")])]

/-- A record with a non-blank campaign name. -/
def c6recOk : Json :=
  .obj [("account_name", .str "A"), ("campaign", .obj [("name", .str "Keep")])]

/-- C6 witness: on a concrete two-record input the whitespace-only-name
row is excluded and the non-blank row is retained. -/
theorem C6_witness :
    (flatten_row c6recBlank ∈ tableRows [c6recBlank, c6recOk] ↔
      stripPy (rowName (flatten_row c6recBlank)) ≠ "") ∧
    stripPy (rowName (flatten_row c6recBlank)) = "" ∧
    (flatten_row c6recOk ∈ tableRows [c6recBlank, c6recOk] ↔
      stripPy (rowName (flatten_row c6recOk)) ≠ "") ∧
    stripPy (rowName (flatten_row c6recOk)) = "Keep" :=
  ⟨C6_row_filter _ _ (by decide), by decide,
   C6_row_filter _ _ (by decide), by decide⟩

/-- C5 witness: the amended object-list mapping applied at the concrete
duplicate-object input, evaluating to `"x"`. -/
theorem C5_witness :
    normalize_list (.arr [.obj [("name", .str "x")], .obj [("name", .str "x")]]) =
      joinComma (dedupNonEmpty
        (List.map specTruthyLabel [Json.obj [("name", .str "x")], .obj [("name", .str "x")]])) ∧
    joinComma (dedupNonEmpty
      (List.map specTruthyLabel [Json.obj [("name", .str "x")], .obj [("name", .str "x")]])) = "x" :=
  ⟨C5_normalize_list.2.2.2 _ (by decide) (by decide), by decide⟩

/-- C8 witness: the amended extraction rules applied at concrete bodies
(array body, enveloped items, a `next_page` pointer, a non-dict body). -/
theorem C8_witness :
    extract_list_and_next (.arr [.num 1]) = some (.arr [.num 1], .null) ∧
    (extract_list_and_next (.obj [("items", .arr [.num 2])])).map Prod.fst =
      some ((firstTruthyKey (.obj [("items", .arr [.num 2])])
        ["results", "items", "data"]).getD (.arr [])) ∧
    (extract_list_and_next (.obj [("next_page", .str "/p2")])).map Prod.snd =
      some (.str "/p2") ∧
    extract_list_and_next (.str "nope") = none := by
  refine ⟨C8_extract_shape.1 [.num 1], (C8_extract_shape.2.1 _).1, ?_,
    C8_extract_shape.2.2 _ (by decide) (by decide)⟩
  exact (C8_extract_shape.2.1 [("next_page", .str "/p2")]).2.1 _ (by decide)

/-- C9: a 429 response makes `session_get_json` sleep once and retry the
*same* request (url, headers, params are passed unchanged into the
recursive call) invisibly to the caller, and since no attempt bound
exists, a server that always answers 429 makes the wrapper recurse
forever (no fuel suffices). -/
theorem C9_retry_429 :
    (∀ (server : HttpRequest → Nat → Nat × Json) (req : HttpRequest) (attempt fuel : Nat),
      (server req attempt).1 = 429 →
      session_get_json server req attempt (fuel + 1) =
        (session_get_json server req (attempt + 1) fuel).map fun p => (p.1, p.2 + 1)) ∧
    (∀ (server : HttpRequest → Nat → Nat × Json) (req : HttpRequest),
      (∀ n, (server req n).1 = 429) →
      ∀ attempt fuel, session_get_json server req attempt fuel = none) := by
  refine ⟨?_, ?_⟩
  · intro server req attempt fuel h
    simp only [session_get_json, h, if_true]
    cases hrec : session_get_json server req (attempt + 1) fuel with
    | none => simp
    | some p => cases p; simp
  · intro server req h attempt fuel
    induction fuel generalizing attempt with
    | zero => rfl
    | succ n ih =>
      simp only [session_get_json, h attempt, if_true, ih (attempt + 1)]

/-- A server that always answers 429 (rate limited). -/
def server429 : HttpRequest → Nat → Nat × Json := fun _ _ => (429, .null)

/-- A fixed request for the retry witness. -/
def req429 : HttpRequest :=
  ⟨"https://api.example/x", [("accept", "application/json")], [("page", .num 1)]⟩

/-- C9 witness: against the always-429 server the wrapper returns for no
fuel (here 5), and one 429 unfolds to a retry of the identical request
with one extra sleep. -/
theorem C9_witness :
    session_get_json server429 req429 0 5 = none ∧
    session_get_json server429 req429 0 1 =
      (session_get_json server429 req429 1 0).map (fun p => (p.1, p.2 + 1)) :=
  ⟨C9_retry_429.2 server429 req429 (fun _ => rfl) 0 5,
   C9_retry_429.1 server429 req429 0 0 rfl⟩

theorem pickIdFrom_none (acc : Json) :
    ∀ keys : List String, (∀ k ∈ keys, acc.get k = .null) → pickIdFrom acc keys = none := by
  intro keys
  induction keys with
  | nil => intro _; rfl
  | cons k ks ih =>
    intro h
    have hk : acc.get k = .null := h k (List.mem_cons_self k ks)
    simp only [pickIdFrom]
    rw [hk]
    exact ih fun k2 hk2 => h k2 (List.mem_cons_of_mem k hk2)

/-- C10: an account record whose id alias keys are all absent or null is
skipped entirely — the run over `pre ++ acc :: post` produces exactly the
rows and requests of the run over `pre ++ post`. -/
theorem C10_skip_account_without_id :
    ∀ (server : Request → Json) (fuel : Nat) (acc : Json) (pre post : List Json)
      (rows : List CampaignRow) (reqs : List Request),
      (∀ k ∈ ACCOUNT_ID_KEYS, acc.get k = .null) →
      processAccounts server fuel (pre ++ acc :: post) rows reqs =
        processAccounts server fuel (pre ++ post) rows reqs := by
  intro server fuel acc pre post
  induction pre with
  | nil =>
    intro rows reqs h
    have hp : pick_account_id acc = none := pickIdFrom_none acc ACCOUNT_ID_KEYS h
    simp only [List.nil_append, processAccounts, hp]
  | cons a pre ih =>
    intro rows reqs h
    simp only [List.cons_append, processAccounts]
    cases hpick : pick_account_id a with
    | none => exact ih rows reqs h
    | some aid =>
      by_cases haid : aid = ""
      · simp only [haid, if_pos]
        exact ih rows reqs h
      · simp only [if_neg haid]
        cases hf : fetch_campaigns_for_account server aid fuel with
        | none => rfl
        | some fr =>
          cases fr with
          | typeError r => rfl
          | ok camps r => exact ih _ _ h

/-- An account record with a name but none of the id alias keys. -/
def c10acc : Json := .obj [("name", .str "NoId")]

/-- A trivial server for the C10 witness. -/
def c10server : Request → Json := fun _ => .arr []

/-- C10 witness: a run whose only account lacks every id alias behaves
exactly like the empty run — no request, no row, normal completion. -/
theorem C10_witness :
    processAccounts c10server 1 [c10acc] [] [] = processAccounts c10server 1 [] [] [] ∧
    processAccounts c10server 1 [] [] [] = some (.ok [] []) :=
  ⟨C10_skip_account_without_id c10server 1 c10acc [] [] [] [] (by decide), rfl⟩

/-- The request log of a fetch outcome. -/
def reqLog : FetchResult → List Request
  | .ok _ reqs => reqs
  | .typeError reqs => reqs

theorem fetchAux_step_stop (server : Request → Json) (limit fuel : Nat) (url : String)
    (page : Nat) (acc : List Json) (reqs : List Request) (items : List Json)
    (hex : extract_list_and_next (server ⟨url, page, limit⟩) = some (.arr items, .null))
    (hlt : items.length < limit) :
    fetchCampaignsAux server limit (fuel + 1) url page acc reqs =
      some (.ok (acc ++ items) (reqs ++ [⟨url, page, limit⟩])) := by
  simp only [fetchCampaignsAux, hex, pyIter]
  simp [Json.truthy, hlt]

theorem fetchAux_step_full (server : Request → Json) (limit fuel : Nat) (url : String)
    (page : Nat) (acc : List Json) (reqs : List Request) (items : List Json)
    (hex : extract_list_and_next (server ⟨url, page, limit⟩) = some (.arr items, .null))
    (hge : limit ≤ items.length) :
    fetchCampaignsAux server limit (fuel + 1) url page acc reqs =
      fetchCampaignsAux server limit fuel url (page + 1) (acc ++ items)
        (reqs ++ [⟨url, page, limit⟩]) := by
  simp only [fetchCampaignsAux, hex, pyIter]
  simp [Json.truthy, Nat.not_lt.mpr hge]

theorem fetchAux_step_pointer (server : Request → Json) (limit fuel : Nat) (url : String)
    (page : Nat) (acc : List Json) (reqs : List Request) (items : List Json) (s : String)
    (hex : extract_list_and_next (server ⟨url, page, limit⟩) = some (.arr items, .str s))
    (hs : s ≠ "") :
    fetchCampaignsAux server limit (fuel + 1) url page acc reqs =
      fetchCampaignsAux server limit fuel (resolve_next_url s) (page + 1) (acc ++ items)
        (reqs ++ [⟨url, page, limit⟩]) := by
  simp only [fetchCampaignsAux, hex, pyIter]
  simp [Json.truthy, hs]

theorem fetchAux_reqs_length (server : Request → Json) (limit : Nat) :
    ∀ (fuel : Nat) (url : String) (page : Nat) (acc : List Json) (reqs : List Request)
      (camps : List Json) (rs : List Request),
      fetchCampaignsAux server limit fuel url page acc reqs = some (.ok camps rs) →
      reqs.length + 1 ≤ rs.length := by
  intro fuel
  induction fuel with
  | zero =>
    intro url page acc reqs camps rs h
    exact absurd h (by simp [fetchCampaignsAux])
  | succ n ih =>
    intro url page acc reqs camps rs h
    simp only [fetchCampaignsAux] at h
    cases hex : extract_list_and_next (server ⟨url, page, limit⟩) with
    | none => rw [hex] at h; simp at h
    | some p =>
      obtain ⟨campaigns, next⟩ := p
      rw [hex] at h
      dsimp only at h
      cases hit : pyIter campaigns with
      | none => rw [hit] at h; simp at h
      | some items =>
        rw [hit] at h
        dsimp only at h
        by_cases ht : next.truthy
        · rw [if_pos ht] at h
          cases next with
          | str s =>
            have hlen := ih _ _ _ _ _ _ h
            simp only [List.length_append, List.length_cons, List.length_nil] at hlen
            omega
          | null => simp at h
          | bool b => simp at h
          | num m => simp at h
          | arr xs => simp at h
          | obj fs => simp at h
        · rw [if_neg ht] at h
          by_cases hlt : items.length < limit
          · rw [if_pos hlt] at h
            simp only [Option.some.injEq, FetchResult.ok.injEq] at h
            obtain ⟨-, hrs⟩ := h
            simp [← hrs]
          · rw [if_neg hlt] at h
            have hlen := ih _ _ _ _ _ _ h
            simp only [List.length_append, List.length_cons, List.length_nil] at hlen
            omega

/-- C2: on a successful run, after a request whose response yields
`items` and pointer `next`, the loop stops with exactly that one further
request logged iff the page is short and the pointer is falsy; in every
other case (truthy pointer, or a page of at least `limit` items) at
least one more request is issued. -/
theorem C2_pagination_policy :
    ∀ (server : Request → Json) (limit fuel : Nat) (url : String) (page : Nat)
      (acc : List Json) (reqs : List Request) (items : List Json) (next : Json)
      (camps : List Json) (rs : List Request),
      extract_list_and_next (server ⟨url, page, limit⟩) = some (.arr items, next) →
      (next = .null ∨ ∃ s : String, next = .str s) →
      fetchCampaignsAux server limit (fuel + 1) url page acc reqs = some (.ok camps rs) →
      ((next.truthy = false ∧ items.length < limit) ↔ rs = reqs ++ [⟨url, page, limit⟩]) ∧
      (¬(next.truthy = false ∧ items.length < limit) → reqs.length + 2 ≤ rs.length) := by
  intro server limit fuel url page acc reqs items next camps rs hex hnx hrun
  by_cases ht : next.truthy
  · rcases hnx with rfl | ⟨s, rfl⟩
    · simp [Json.truthy] at ht
    · have hs : s ≠ "" := by
        intro hempty
        rw [hempty] at ht
        simp [Json.truthy] at ht
      rw [fetchAux_step_pointer server limit fuel url page acc reqs items s hex hs] at hrun
      have hlen := fetchAux_reqs_length server limit fuel _ _ _ _ _ _ hrun
      simp only [List.length_append, List.length_cons, List.length_nil] at hlen
      constructor
      · constructor
        · rintro ⟨hf, -⟩
          rw [ht] at hf
          cases hf
        · intro hrs
          rw [hrs] at hlen
          simp at hlen
      · intro _
        omega
  · have ht0 : next.truthy = false := by
      cases hb : next.truthy
      · rfl
      · exact absurd hb ht
    rcases hnx with rfl | ⟨s, rfl⟩
    · by_cases hlt : items.length < limit
      · rw [fetchAux_step_stop server limit fuel url page acc reqs items hex hlt] at hrun
        simp only [Option.some.injEq, FetchResult.ok.injEq] at hrun
        obtain ⟨-, hrs⟩ := hrun
        constructor
        · exact ⟨fun _ => hrs.symm, fun _ => ⟨ht0, hlt⟩⟩
        · intro hcon
          exact absurd ⟨ht0, hlt⟩ hcon
      · rw [fetchAux_step_full server limit fuel url page acc reqs items hex
          (Nat.not_lt.mp hlt)] at hrun
        have hlen := fetchAux_reqs_length server limit fuel _ _ _ _ _ _ hrun
        simp only [List.length_append, List.length_cons, List.length_nil] at hlen
        constructor
        · constructor
          · rintro ⟨-, hl⟩
            exact absurd hl hlt
          · intro hrs
            rw [hrs] at hlen
            simp at hlen
        · intro _
          omega
    · -- a falsy string pointer behaves like no pointer
      have hs0 : s = "" := by
        by_contra hne
        simp [Json.truthy, hne] at ht0
      subst hs0
      by_cases hlt : items.length < limit
      · have hrun2 : some (FetchResult.ok (acc ++ items) (reqs ++ [⟨url, page, limit⟩])) =
            some (FetchResult.ok camps rs) := by
          rw [← hrun]
          simp only [fetchCampaignsAux, hex, pyIter]
          simp [Json.truthy, hlt]
        simp only [Option.some.injEq, FetchResult.ok.injEq] at hrun2
        obtain ⟨-, hrs⟩ := hrun2
        constructor
        · exact ⟨fun _ => hrs.symm, fun _ => ⟨ht0, hlt⟩⟩
        · intro hcon
          exact absurd ⟨ht0, hlt⟩ hcon
      · have hrun2 : fetchCampaignsAux server limit fuel url (page + 1) (acc ++ items)
            (reqs ++ [⟨url, page, limit⟩]) = some (FetchResult.ok camps rs) := by
          rw [← hrun]
          simp only [fetchCampaignsAux, hex, pyIter]
          simp [Json.truthy, hlt]
        have hlen := fetchAux_reqs_length server limit fuel _ _ _ _ _ _ hrun2
        simp only [List.length_append, List.length_cons, List.length_nil] at hlen
        constructor
        · constructor
          · rintro ⟨-, hl⟩
            exact absurd hl hlt
          · intro hrs
            rw [hrs] at hlen
            simp at hlen
        · intro _
          omega

/-- A one-page server: an enveloped empty result list without pointer. -/
def c2server : Request → Json := fun _ => .obj [("results", .arr [])]

/-- C2 witness: a short first page with no pointer stops after exactly
one request. -/
theorem C2_witness :
    ((Json.null.truthy = false ∧ ([] : List Json).length < 1) ↔
      [({ url := "u", page := 1, limit := 1 } : Request)] = [] ++ [⟨"u", 1, 1⟩]) ∧
    (¬(Json.null.truthy = false ∧ ([] : List Json).length < 1) →
      ([] : List Request).length + 2 ≤ [({ url := "u", page := 1, limit := 1 } : Request)].length) :=
  C2_pagination_policy c2server 1 0 "u" 1 [] [] [] .null [] [⟨"u", 1, 1⟩] rfl (Or.inl rfl) rfl

/-- A page of exactly `limit = 100` items. -/
def fullPage : Json := .arr (List.replicate 100 (.num 1))

/-- The synthetic page-number server of the claim: pages 1–3 return
exactly 100 items as bare arrays (so no next-pointer), later pages are
empty. -/
def server3 : Request → Json := fun req => if req.page ≤ 3 then fullPage else .arr []

/-- C1 (counterexample): on the synthetic 3-page server with full pages
and no pointers, the paginator does NOT stop after 3 fetches: page 3
being full forces a 4th request (page 4), and the run terminates with a
request log of length 4, not 3. -/
theorem C1_counterexample :
    (fetch_campaigns_for_account server3 "A" 10).map reqLog =
      some [⟨urljoinBase (campaignsPath "A"), 1, 100⟩,
            ⟨urljoinBase (campaignsPath "A"), 2, 100⟩,
            ⟨urljoinBase (campaignsPath "A"), 3, 100⟩,
            ⟨urljoinBase (campaignsPath "A"), 4, 100⟩] ∧
    (4 : Nat) ≠ 3 := ⟨by decide, by decide⟩

/-- C1 (amended): with pages 1–3 exactly full (no pointer) and page 4
short (no pointer), the paginator issues exactly 4 fetches — the 4th
request is forced by page 3 being full — and then terminates, for any
spare fuel. -/
theorem C1_full_last_page_fourth_fetch :
    ∀ (server : Request → Json) (aid : String) (p1 p2 p3 p4 : List Json) (k : Nat),
      extract_list_and_next (server ⟨urljoinBase (campaignsPath aid), 1, 100⟩) =
        some (.arr p1, .null) → p1.length = 100 →
      extract_list_and_next (server ⟨urljoinBase (campaignsPath aid), 2, 100⟩) =
        some (.arr p2, .null) → p2.length = 100 →
      extract_list_and_next (server ⟨urljoinBase (campaignsPath aid), 3, 100⟩) =
        some (.arr p3, .null) → p3.length = 100 →
      extract_list_and_next (server ⟨urljoinBase (campaignsPath aid), 4, 100⟩) =
        some (.arr p4, .null) → p4.length < 100 →
      fetch_campaigns_for_account server aid (k + 4) =
        some (.ok ((([] ++ p1) ++ p2) ++ p3 ++ p4)
          [⟨urljoinBase (campaignsPath aid), 1, 100⟩, ⟨urljoinBase (campaignsPath aid), 2, 100⟩,
           ⟨urljoinBase (campaignsPath aid), 3, 100⟩, ⟨urljoinBase (campaignsPath aid), 4, 100⟩]) := by
  intro server aid p1 p2 p3 p4 k h1 l1 h2 l2 h3 l3 h4 l4
  show fetchCampaignsAux server 100 (k + 3 + 1) (urljoinBase (campaignsPath aid)) 1 [] [] = _
  rw [fetchAux_step_full server 100 (k + 3) _ 1 [] [] p1 h1 (by omega)]
  show fetchCampaignsAux server 100 (k + 2 + 1) (urljoinBase (campaignsPath aid)) 2 _ _ = _
  rw [fetchAux_step_full server 100 (k + 2) _ 2 _ _ p2 h2 (by omega)]
  show fetchCampaignsAux server 100 (k + 1 + 1) (urljoinBase (campaignsPath aid)) 3 _ _ = _
  rw [fetchAux_step_full server 100 (k + 1) _ 3 _ _ p3 h3 (by omega)]
  show fetchCampaignsAux server 100 (k + 1) (urljoinBase (campaignsPath aid)) 4 _ _ = _
  rw [fetchAux_step_stop server 100 k _ 4 _ _ p4 h4 l4]
  simp

/-- C1 witness: the amended statement evaluated on the concrete
synthetic server — 4 requests issued, run terminates. -/
theorem C1_witness :
    fetch_campaigns_for_account server3 "A" 4 =
      some (.ok ((([] ++ List.replicate 100 (Json.num 1)) ++ List.replicate 100 (.num 1)) ++
          List.replicate 100 (.num 1) ++ ([] : List Json))
        [⟨urljoinBase (campaignsPath "A"), 1, 100⟩, ⟨urljoinBase (campaignsPath "A"), 2, 100⟩,
         ⟨urljoinBase (campaignsPath "A"), 3, 100⟩, ⟨urljoinBase (campaignsPath "A"), 4, 100⟩]) :=
  C1_full_last_page_fourth_fetch server3 "A" _ _ _ [] 0 rfl (by decide) rfl (by decide)
    rfl (by decide) rfl (by decide)

/-- A server whose first page is full and carries a relative pointer;
every other request returns an empty bare array. -/
def serverPtr : Request → Json := fun req =>
  if req.page = 1 then .obj [("results", fullPage), ("next", .str "/next1")]
  else .arr []

/-- C3 (counterexample): after a page that supplies a pointer, the next
request goes to the resolved pointer but with the local page counter
*incremented* — the second logged request carries page 2, whereas the
claim ("the counter is incremented only on iterations where no pointer
is supplied") predicts page 1. -/
theorem C3_counterexample :
    (fetch_campaigns_for_account serverPtr "A" 10).map reqLog =
      some [⟨urljoinBase (campaignsPath "A"), 1, 100⟩,
            ⟨resolve_next_url "/next1", 2, 100⟩] ∧
    (2 : Nat) ≠ 1 := ⟨by decide, by decide⟩

/-- C3 (amended): when the response supplies a truthy pointer the next
request URL is the (absolute or base-resolved) pointer, and the page
counter is incremented on *every* continuing iteration — on the pointer
path just as on the full-page fallback path. -/
theorem C3_pointer_and_counter :
    (∀ (server : Request → Json) (limit fuel : Nat) (url : String) (page : Nat)
      (acc : List Json) (reqs : List Request) (items : List Json) (s : String),
      extract_list_and_next (server ⟨url, page, limit⟩) = some (.arr items, .str s) →
      s ≠ "" →
      fetchCampaignsAux server limit (fuel + 1) url page acc reqs =
        fetchCampaignsAux server limit fuel (resolve_next_url s) (page + 1) (acc ++ items)
          (reqs ++ [⟨url, page, limit⟩])) ∧
    (∀ (server : Request → Json) (limit fuel : Nat) (url : String) (page : Nat)
      (acc : List Json) (reqs : List Request) (items : List Json),
      extract_list_and_next (server ⟨url, page, limit⟩) = some (.arr items, .null) →
      limit ≤ items.length →
      fetchCampaignsAux server limit (fuel + 1) url page acc reqs =
        fetchCampaignsAux server limit fuel url (page + 1) (acc ++ items)
          (reqs ++ [⟨url, page, limit⟩])) :=
  ⟨fun server limit fuel url page acc reqs items s hex hs =>
    fetchAux_step_pointer server limit fuel url page acc reqs items s hex hs,
   fun server limit fuel url page acc reqs items hex hge =>
    fetchAux_step_full server limit fuel url page acc reqs items hex hge⟩

/-- C3 witness: the pointer path at a concrete server follows the
resolved pointer with the counter moved from 1 to 2, and the fallback
path on the synthetic full-page server also increments the counter. -/
theorem C3_witness :
    fetchCampaignsAux serverPtr 100 1 (urljoinBase (campaignsPath "A")) 1 [] [] =
      fetchCampaignsAux serverPtr 100 0 (resolve_next_url "/next1") 2
        ([] ++ List.replicate 100 (Json.num 1))
        ([] ++ [⟨urljoinBase (campaignsPath "A"), 1, 100⟩]) ∧
    fetchCampaignsAux server3 100 1 (urljoinBase (campaignsPath "A")) 1 [] [] =
      fetchCampaignsAux server3 100 0 (urljoinBase (campaignsPath "A")) 2
        ([] ++ List.replicate 100 (Json.num 1))
        ([] ++ [⟨urljoinBase (campaignsPath "A"), 1, 100⟩]) :=
  ⟨C3_pointer_and_counter.1 serverPtr 100 0 _ 1 [] [] _ "/next1" rfl (by decide),
   C3_pointer_and_counter.2 server3 100 0 _ 1 [] [] _ rfl (by decide)⟩

theorem pdSum_eq (xs : List Json) : pdSum xs = (xs.filterMap asNum).sum := by
  induction xs with
  | nil => rfl
  | cons x xs ih =>
    cases hx : asNum x <;> simp [pdSum, List.filterMap_cons, hx, ih]

theorem pdMaxNum_none (xs : List Json) : pdMaxNum xs = none ↔ xs.filterMap asNum = [] := by
  induction xs with
  | nil => simp [pdMaxNum]
  | cons x xs ih =>
    cases hx : asNum x with
    | none =>
      simp only [pdMaxNum, hx, List.filterMap_cons]
      exact ih
    | some a =>
      simp only [pdMaxNum, hx, List.filterMap_cons]
      cases hmx : pdMaxNum xs <;> simp

theorem pdMaxNum_spec (xs : List Json) :
    ∀ m, pdMaxNum xs = some m →
      m ∈ xs.filterMap asNum ∧ ∀ v ∈ xs.filterMap asNum, v ≤ m := by
  induction xs with
  | nil => intro m h; cases h
  | cons x xs ih =>
    intro m h
    cases hx : asNum x with
    | none =>
      simp only [pdMaxNum, hx] at h
      obtain ⟨hmem, hle⟩ := ih m h
      simp only [List.filterMap_cons, hx]
      exact ⟨hmem, hle⟩
    | some a =>
      simp only [pdMaxNum, hx] at h
      cases hmx : pdMaxNum xs with
      | none =>
        rw [hmx] at h
        simp only [Option.some.injEq] at h
        subst h
        have hemp := (pdMaxNum_none xs).mp hmx
        simp [List.filterMap_cons, hx, hemp]
      | some b =>
        rw [hmx] at h
        simp only [Option.some.injEq] at h
        subst h
        obtain ⟨hmem, hle⟩ := ih b hmx
        constructor
        · simp only [List.filterMap_cons, hx, List.mem_cons]
          rcases max_choice a b with hc | hc
          · exact Or.inl hc
          · exact Or.inr (hc.symm ▸ hmem)
        · intro v hv
          simp only [List.filterMap_cons, hx, List.mem_cons] at hv
          rcases hv with rfl | hv
          · exact le_max_left _ _
          · exact le_trans (hle v hv) (le_max_right _ _)

theorem pdMaxNum_isSome (xs : List Json) (hne : xs.filterMap asNum ≠ []) :
    ∃ m, pdMaxNum xs = some m := by
  cases hmx : pdMaxNum xs with
  | none => exact absurd ((pdMaxNum_none xs).mp hmx) hne
  | some m => exact ⟨m, rfl⟩

theorem pdMinStr_none (xs : List Json) : pdMinStr xs = none ↔ xs.filterMap asStr = [] := by
  induction xs with
  | nil => simp [pdMinStr]
  | cons x xs ih =>
    cases hx : asStr x with
    | none =>
      simp only [pdMinStr, hx, List.filterMap_cons]
      exact ih
    | some a =>
      simp only [pdMinStr, hx, List.filterMap_cons]
      cases hmx : pdMinStr xs <;> simp

theorem pdMinStr_spec (xs : List Json) :
    ∀ m, pdMinStr xs = some m →
      m ∈ xs.filterMap asStr ∧ ∀ v ∈ xs.filterMap asStr, m ≤ v := by
  induction xs with
  | nil => intro m h; cases h
  | cons x xs ih =>
    intro m h
    cases hx : asStr x with
    | none =>
      simp only [pdMinStr, hx] at h
      obtain ⟨hmem, hle⟩ := ih m h
      simp only [List.filterMap_cons, hx]
      exact ⟨hmem, hle⟩
    | some a =>
      simp only [pdMinStr, hx] at h
      cases hmx : pdMinStr xs with
      | none =>
        rw [hmx] at h
        simp only [Option.some.injEq] at h
        subst h
        have hemp := (pdMinStr_none xs).mp hmx
        simp [List.filterMap_cons, hx, hemp]
      | some b =>
        rw [hmx] at h
        simp only [Option.some.injEq] at h
        subst h
        obtain ⟨hmem, hle⟩ := ih b hmx
        constructor
        · simp only [List.filterMap_cons, hx, List.mem_cons]
          rcases min_choice a b with hc | hc
          · exact Or.inl hc
          · exact Or.inr (hc.symm ▸ hmem)
        · intro v hv
          simp only [List.filterMap_cons, hx, List.mem_cons] at hv
          rcases hv with rfl | hv
          · exact min_le_left _ _
          · exact le_trans (min_le_right _ _) (hle v hv)

theorem pdMinStr_isSome (xs : List Json) (hne : xs.filterMap asStr ≠ []) :
    ∃ m, pdMinStr xs = some m := by
  cases hmx : pdMinStr xs with
  | none => exact absurd ((pdMinStr_none xs).mp hmx) hne
  | some m => exact ⟨m, rfl⟩

theorem pdMaxStr_none (xs : List Json) : pdMaxStr xs = none ↔ xs.filterMap asStr = [] := by
  induction xs with
  | nil => simp [pdMaxStr]
  | cons x xs ih =>
    cases hx : asStr x with
    | none =>
      simp only [pdMaxStr, hx, List.filterMap_cons]
      exact ih
    | some a =>
      simp only [pdMaxStr, hx, List.filterMap_cons]
      cases hmx : pdMaxStr xs <;> simp

theorem pdMaxStr_spec (xs : List Json) :
    ∀ m, pdMaxStr xs = some m →
      m ∈ xs.filterMap asStr ∧ ∀ v ∈ xs.filterMap asStr, v ≤ m := by
  induction xs with
  | nil => intro m h; cases h
  | cons x xs ih =>
    intro m h
    cases hx : asStr x with
    | none =>
      simp only [pdMaxStr, hx] at h
      obtain ⟨hmem, hle⟩ := ih m h
      simp only [List.filterMap_cons, hx]
      exact ⟨hmem, hle⟩
    | some a =>
      simp only [pdMaxStr, hx] at h
      cases hmx : pdMaxStr xs with
      | none =>
        rw [hmx] at h
        simp only [Option.some.injEq] at h
        subst h
        have hemp := (pdMaxStr_none xs).mp hmx
        simp [List.filterMap_cons, hx, hemp]
      | some b =>
        rw [hmx] at h
        simp only [Option.some.injEq] at h
        subst h
        obtain ⟨hmem, hle⟩ := ih b hmx
        constructor
        · simp only [List.filterMap_cons, hx, List.mem_cons]
          rcases max_choice a b with hc | hc
          · exact Or.inl hc
          · exact Or.inr (hc.symm ▸ hmem)
        · intro v hv
          simp only [List.filterMap_cons, hx, List.mem_cons] at hv
          rcases hv with rfl | hv
          · exact le_max_left _ _
          · exact le_trans (hle v hv) (le_max_right _ _)

theorem pdMaxStr_isSome (xs : List Json) (hne : xs.filterMap asStr ≠ []) :
    ∃ m, pdMaxStr xs = some m := by
  cases hmx : pdMaxStr xs with
  | none => exact absurd ((pdMaxStr_none xs).mp hmx) hne
  | some m => exact ⟨m, rfl⟩

/-- C4: for every input and every (account_name, stringified
campaign_name) group key, the summary row sums each stats counter other
than `latest_action_id` and `step_count` over the numeric values
of the group, takes a maximum for `latest_action_id` and `step_count`
(an element of the group that bounds every other value, existing
whenever the group has a numeric value), the minimum of `activated` and
the maximum of `deactivated` (over the string values of the group). -/
theorem C4_summary_aggregation :
    ∀ (data : List Json) (key : Json × String),
      ((summaryFor (tableRows data) key).stats_stopped =
        (((groupOf (tableRows data) key).map (·.stats_stopped)).filterMap asNum).sum ∧
       (summaryFor (tableRows data) key).stats_finished =
        (((groupOf (tableRows data) key).map (·.stats_finished)).filterMap asNum).sum ∧
       (summaryFor (tableRows data) key).stats_in_queue =
        (((groupOf (tableRows data) key).map (·.stats_in_queue)).filterMap asNum).sum ∧
       (summaryFor (tableRows data) key).stats_connected =
        (((groupOf (tableRows data) key).map (·.stats_connected)).filterMap asNum).sum ∧
       (summaryFor (tableRows data) key).stats_initiated =
        (((groupOf (tableRows data) key).map (·.stats_initiated)).filterMap asNum).sum ∧
       (summaryFor (tableRows data) key).stats_maybe_people =
        (((groupOf (tableRows data) key).map (·.stats_maybe_people)).filterMap asNum).sum ∧
       (summaryFor (tableRows data) key).stats_contacted_people =
        (((groupOf (tableRows data) key).map (·.stats_contacted_people)).filterMap asNum).sum ∧
       (summaryFor (tableRows data) key).stats_interested_people =
        (((groupOf (tableRows data) key).map (·.stats_interested_people)).filterMap asNum).sum ∧
       (summaryFor (tableRows data) key).stats_people_in_campaign =
        (((groupOf (tableRows data) key).map (·.stats_people_in_campaign)).filterMap asNum).sum ∧
       (summaryFor (tableRows data) key).stats_replied_first_action =
        (((groupOf (tableRows data) key).map (·.stats_replied_first_action)).filterMap asNum).sum ∧
       (summaryFor (tableRows data) key).stats_not_interested_people =
        (((groupOf (tableRows data) key).map (·.stats_not_interested_people)).filterMap asNum).sum ∧
       (summaryFor (tableRows data) key).stats_replied_other_actions =
        (((groupOf (tableRows data) key).map (·.stats_replied_other_actions)).filterMap asNum).sum) ∧
      (∀ m, (summaryFor (tableRows data) key).stats_latest_action_id = some m →
        m ∈ ((groupOf (tableRows data) key).map (·.stats_latest_action_id)).filterMap asNum ∧
        ∀ v ∈ ((groupOf (tableRows data) key).map (·.stats_latest_action_id)).filterMap asNum,
          v ≤ m) ∧
      (((groupOf (tableRows data) key).map (·.stats_latest_action_id)).filterMap asNum ≠ [] →
        ∃ m, (summaryFor (tableRows data) key).stats_latest_action_id = some m) ∧
      (∀ m, (summaryFor (tableRows data) key).stats_step_count = some m →
        m ∈ ((groupOf (tableRows data) key).map (·.stats_step_count)).filterMap asNum ∧
        ∀ v ∈ ((groupOf (tableRows data) key).map (·.stats_step_count)).filterMap asNum, v ≤ m) ∧
      (((groupOf (tableRows data) key).map (·.stats_step_count)).filterMap asNum ≠ [] →
        ∃ m, (summaryFor (tableRows data) key).stats_step_count = some m) ∧
      (∀ m, (summaryFor (tableRows data) key).activated = some m →
        m ∈ ((groupOf (tableRows data) key).map (·.activated)).filterMap asStr ∧
        ∀ v ∈ ((groupOf (tableRows data) key).map (·.activated)).filterMap asStr, m ≤ v) ∧
      (((groupOf (tableRows data) key).map (·.activated)).filterMap asStr ≠ [] →
        ∃ m, (summaryFor (tableRows data) key).activated = some m) ∧
      (∀ m, (summaryFor (tableRows data) key).deactivated = some m →
        m ∈ ((groupOf (tableRows data) key).map (·.deactivated)).filterMap asStr ∧
        ∀ v ∈ ((groupOf (tableRows data) key).map (·.deactivated)).filterMap asStr, v ≤ m) ∧
      (((groupOf (tableRows data) key).map (·.deactivated)).filterMap asStr ≠ [] →
        ∃ m, (summaryFor (tableRows data) key).deactivated = some m) :=
  fun data key =>
    ⟨⟨pdSum_eq _, pdSum_eq _, pdSum_eq _, pdSum_eq _, pdSum_eq _, pdSum_eq _, pdSum_eq _,
      pdSum_eq _, pdSum_eq _, pdSum_eq _, pdSum_eq _, pdSum_eq _⟩,
     fun m h => pdMaxNum_spec _ m h,
     fun hne => pdMaxNum_isSome _ hne,
     fun m h => pdMaxNum_spec _ m h,
     fun hne => pdMaxNum_isSome _ hne,
     fun m h => pdMinStr_spec _ m h,
     fun hne => pdMinStr_isSome _ hne,
     fun m h => pdMaxStr_spec _ m h,
     fun hne => pdMaxStr_isSome _ hne⟩

/-- First record of the aggregation witness: connected 3, step_count 4. -/
def c4recA : Json :=
  .obj [("account_name", .str "Acc"),
    ("campaign", .obj [("name", .str "Camp"),
      ("stats", .obj [("connected", .num 3), ("step_count", .num 4)])])]

/-- Second record of the aggregation witness: connected 5, step_count 7. -/
def c4recB : Json :=
  .obj [("account_name", .str "Acc"),
    ("campaign", .obj [("name", .str "Camp"),
      ("stats", .obj [("connected", .num 5), ("step_count", .num 7)])])]

/-- The shared group key of the two witness records. -/
def c4key : Json × String := (.str "Acc", "Camp")

/-- C4 witness: two rows of the same group with connected 3 and 5 sum to
8, while step_count 4 and 7 aggregate to the maximum 7 (which bounds the
values of the group). -/
theorem C4_witness :
    (summaryFor (tableRows [c4recA, c4recB]) c4key).stats_connected = 8 ∧
    (summaryFor (tableRows [c4recA, c4recB]) c4key).stats_step_count = some 7 ∧
    (7 : Int) ∈ ((groupOf (tableRows [c4recA, c4recB]) c4key).map
      (·.stats_step_count)).filterMap asNum ∧
    (∀ v ∈ ((groupOf (tableRows [c4recA, c4recB]) c4key).map
      (·.stats_step_count)).filterMap asNum, v ≤ 7) ∧
    (summaryFor (tableRows [c4recA, c4recB]) c4key).stats_connected =
      (((groupOf (tableRows [c4recA, c4recB]) c4key).map
        (·.stats_connected)).filterMap asNum).sum := by
  obtain ⟨hsums, hlaidS, hlaidE, hstepS, hstepE, hrest⟩ :=
    C4_summary_aggregation [c4recA, c4recB] c4key
  obtain ⟨hmem, hbound⟩ := hstepS 7 (by decide)
  exact ⟨by decide, by decide, hmem, hbound, hsums.2.2.2.1⟩
